import Mathlib

/-!
Verification of the apartment-application edit/validation/persistence workflow
implemented in `src/views/ApartmentApp/components/StudentApplication/index.js`.

The component state and its handler callbacks are shallowly embedded as pure
Lean functions over an explicit state record.  JavaScript numbers that the
code only compares and copies are modelled as `Int`; `null`/`undefined`
fields are modelled as `Option`; asynchronous service calls are modelled by
an explicit environment of `Except`-valued functions, and the housing-service
calls an operation issues are collected in an explicit trace list.  The
6-second status-icon timers (`setTimeout`) are real-time behaviour and are
not part of the embedded state.
-/

namespace StudentApplication

/-- Profile data returned by the identity service (`StudentProfileInfo`).
`fullName` is `none` when the field is absent (JS `undefined`), `Gender`
likewise. -/
structure StudentProfileInfo where
  AD_Username : String
  FirstName : String
  LastName : String
  fullName : Option String
  PersonType : String
  Gender : Option String
deriving DecidableEq

/-- One entry of `ApplicationDetails.Applicants` (`ApartmentApplicant`). -/
structure ApartmentApplicant where
  ApplicationID : Option Int
  Profile : Option StudentProfileInfo
  Username : String
  OffCampusProgram : String
deriving DecidableEq

/-- One entry of `ApplicationDetails.ApartmentChoices` (`ApartmentChoice`). -/
structure ApartmentChoice where
  ApplicationID : Option Int
  HallRank : Int
  HallName : String
deriving DecidableEq

/-- The aggregate root (`ApplicationDetails`).  `Gender` is the extra field
set by `initializeNewApplication` (absent, i.e. `none`, in
`BLANK_APPLICATION_DETAILS`). -/
structure ApplicationDetails where
  ApplicationID : Option Int
  DateSubmitted : Option String
  DateModified : Option String
  EditorProfile : Option StudentProfileInfo
  Gender : Option String
  Applicants : List ApartmentApplicant
  ApartmentChoices : List ApartmentChoice
deriving DecidableEq

/-- The tri-state busy flag (`false | true | 'success' | 'error'`). -/
inductive SavingFlag where
  | notSaving
  | inProgress
  | success
  | error
deriving DecidableEq

/-- Snackbar notification state; `isOpen` models the JS field `open`. -/
structure SnackbarState where
  message : String
  severity : String
  isOpen : Bool
deriving DecidableEq

/-- The component state variables used by the handlers under verification. -/
structure AppState where
  applicationDetails : ApplicationDetails
  unsavedChanges : Bool
  canEditApplication : Bool
  saving : SavingFlag
  snackbar : SnackbarState
  newEditorProfile : Option StudentProfileInfo
deriving DecidableEq

/-- Failure modes of the remote services (`NotFoundError`, `AuthError`,
any other thrown error). -/
inductive SvcError where
  | notFound
  | auth
  | other
deriving DecidableEq

/-- A call issued to the housing service, recorded in the trace an operation
returns.  `getCurrentApplicationID none` is the no-argument (current member)
variant. -/
inductive HousingCall where
  | getCurrentApplicationID (username : Option String)
  | getApartmentApplication (id : Int)
  | saveApartmentApplication
deriving DecidableEq

/-- The external collaborators (identity service and housing service) plus
the current member profile, supplied to the embedded operations. -/
structure Env where
  userProfile : StudentProfileInfo
  getProfileInfo : String → Except SvcError StudentProfileInfo
  getCurrentApplicationID : Option String → Except SvcError Int
  getApartmentApplication : Int → Except SvcError ApplicationDetails
  saveApartmentApplication : ApplicationDetails → Except SvcError Int

/-- `const MAX_NUM_APPLICANTS = 8`. -/
def MAX_NUM_APPLICANTS : Nat := 8

/-- `const BLANK_APPLICATION_DETAILS = { ... }` (no `Gender` field). -/
def BLANK_APPLICATION_DETAILS : ApplicationDetails :=
  { ApplicationID := none
    DateSubmitted := none
    DateModified := none
    EditorProfile := none
    Gender := none
    Applicants := []
    ApartmentChoices := [] }

/-- `createSnackbar(message, severity)`: sets the snackbar state with the
message, severity and `open: true`. -/
def createSnackbar (message severity : String) (st : AppState) : AppState :=
  { st with snackbar := { message := message, severity := severity, isOpen := true } }

/-- JS template interpolation of a possibly-undefined string
(`${x}` / `String(x)` prints `undefined` when the value is absent). -/
def jsShowOptStr : Option String → String
  | none => "undefined"
  | some s => s

/-- Models `String.prototype.includes` on the underlying character lists:
`charsBeginWith pat s` is true when `pat` is an initial segment of `s`. -/
def charsBeginWith : List Char → List Char → Bool
  | [], _ => true
  | _ :: _, [] => false
  | a :: as, b :: bs => a == b && charsBeginWith as bs

/-- Models `String.prototype.includes`: `pat` occurs somewhere in the text. -/
def charsContain (pat : List Char) : List Char → Bool
  | [] => charsBeginWith pat []
  | c :: cs => charsBeginWith pat (c :: cs) || charsContain pat cs

/-- `s.includes(pat)` for strings. -/
def strIncludes (s pat : String) : Bool :=
  charsContain pat.data s.data

/-- The comparison used by `sortBy(..., ['HallRank', 'HallName'])`:
ascending by `HallRank`, ties broken by `HallName`. -/
def hallLe (a b : ApartmentChoice) : Prop :=
  a.HallRank < b.HallRank ∨ (a.HallRank = b.HallRank ∧ a.HallName.data ≤ b.HallName.data)

instance : DecidableRel hallLe := fun a b => by
  unfold hallLe
  infer_instance

instance : IsTotal ApartmentChoice hallLe := by
  constructor
  intro a b
  rcases lt_trichotomy a.HallRank b.HallRank with h | h | h
  · exact Or.inl (Or.inl h)
  · rcases le_total a.HallName.data b.HallName.data with h2 | h2
    · exact Or.inl (Or.inr ⟨h, h2⟩)
    · exact Or.inr (Or.inr ⟨h.symm, h2⟩)
  · exact Or.inr (Or.inl h)

instance : IsTrans ApartmentChoice hallLe := by
  constructor
  intro a b c hab hbc
  rcases hab with hab | ⟨hab, hab2⟩
  · rcases hbc with hbc | ⟨hbc, _⟩
    · exact Or.inl (lt_trans hab hbc)
    · exact Or.inl (hbc ▸ hab)
  · rcases hbc with hbc | ⟨hbc, hbc2⟩
    · exact Or.inl (hab ▸ hbc)
    · exact Or.inr ⟨hab.trans hbc, le_trans hab2 hbc2⟩

/-- `sortBy(apartmentChoices, ['HallRank', 'HallName'])` (lodash): sort the
hall choices by rank, then name. -/
def sortHalls (cs : List ApartmentChoice) : List ApartmentChoice :=
  List.insertionSort hallLe cs

/-- The JS array-`filter` with an index test
(`.filter((_hall, index) => index !== i)`), keeping positions other than the
absolute index `i`; `k` is the position of the first element of the list. -/
def filterIdxNe (i : Nat) (k : Nat) : List ApartmentChoice → List ApartmentChoice
  | [] => []
  | c :: cs => if k = i then filterIdxNe i (k + 1) cs else c :: filterIdxNe i (k + 1) cs

/-- The JS array-`map` replacing the entry at an index
(`.map((prev, j) => (j === i ? x : prev))`); `k` is the position of the first
element of the list. -/
def mapSetIdx (i : Nat) (x : ApartmentChoice) (k : Nat) : List ApartmentChoice → List ApartmentChoice
  | [] => []
  | c :: cs => (if k = i then x else c) :: mapSetIdx i x (k + 1) cs

/-- List-level body of `handleHallRemove`: drop the entry at `indexToRemove`,
then clamp every rank exceeding the new length down to the new length
(`apartmentChoices.length` inside the `map` callback is the length of the
already-filtered array). -/
def hallRemoveList (indexToRemove : Nat) (cs : List ApartmentChoice) : List ApartmentChoice :=
  let filtered := filterIdxNe indexToRemove 0 cs
  filtered.map fun apartmentChoice =>
    if apartmentChoice.HallRank > (filtered.length : Int) then
      { apartmentChoice with HallRank := (filtered.length : Int) }
    else apartmentChoice

/-- `handleHallRemove(indexToRemove)`: updates `ApartmentChoices` and marks
unsaved changes.  (The JS guard `indexToRemove !== null && !== -1` is
vacuous for a `Nat` index.) -/
def handleHallRemove (indexToRemove : Nat) (st : AppState) : AppState :=
  { st with
    applicationDetails :=
      { st.applicationDetails with
        ApartmentChoices := hallRemoveList indexToRemove st.applicationDetails.ApartmentChoices }
    unsavedChanges := true }

/-- List-level body of `handleHallInputChange`: if the name differs from the
entry currently at `index` and some entry already carries it, leave the list
unchanged apart from re-sorting and report a rejection (second component
`true`); otherwise replace the entry at `index` with the new choice (the
`Number(hallRankValue) ?? ...` / `hallNameValue ?? ...` fallbacks can never
fire — see `hallRankExpr_never_fallback` — so the new entry holds exactly
the given rank and name) and re-sort. -/
def hallEditList (appID : Option Int) (hallRankValue : Int) (hallNameValue : String)
    (index : Nat) (cs : List ApartmentChoice) : List ApartmentChoice × Bool :=
  if (cs[index]?).map ApartmentChoice.HallName ≠ some hallNameValue ∧
      cs.any (fun hallInfo => hallInfo.HallName == hallNameValue) then
    (sortHalls cs, true)
  else
    let newApartmentChoice : ApartmentChoice :=
      { ApplicationID := appID, HallRank := hallRankValue, HallName := hallNameValue }
    (sortHalls (mapSetIdx index newApartmentChoice 0 cs), false)

/-- `handleHallInputChange(hallRankValue, hallNameValue, index)`: applies
`hallEditList`, reports the duplicate-hall notice on rejection, and marks
unsaved changes in either branch.  (The JS guard `index !== null && index >= 0`
is vacuous for a `Nat` index.) -/
def handleHallInputChange (hallRankValue : Int) (hallNameValue : String) (index : Nat)
    (st : AppState) : AppState :=
  let r := hallEditList st.applicationDetails.ApplicationID hallRankValue hallNameValue index
    st.applicationDetails.ApartmentChoices
  let st' := { st with
    applicationDetails := { st.applicationDetails with ApartmentChoices := r.1 }
    unsavedChanges := true }
  if r.2 then
    createSnackbar (hallNameValue ++ " is already in the list.") "info" st'
  else st'

/-- List-level body of `handleHallAdd`: append the placeholder
`{ ApplicationID, HallRank: length + 1, HallName: '' }`. -/
def hallAddList (appID : Option Int) (cs : List ApartmentChoice) : List ApartmentChoice :=
  cs ++ [{ ApplicationID := appID, HallRank := (cs.length : Int) + 1, HallName := "" }]

/-- `handleHallAdd()`: appends a placeholder hall choice with rank
`length + 1` and an empty name.  Note that, unlike the edit and remove
handlers, it does not touch `unsavedChanges`. -/
def handleHallAdd (st : AppState) : AppState :=
  { st with
    applicationDetails :=
      { st.applicationDetails with
        ApartmentChoices :=
          hallAddList st.applicationDetails.ApplicationID
            st.applicationDetails.ApartmentChoices } }

/-- The outcome of `isApplicantValid`: the applicant object after the call
(the function assigns `applicant.Profile.fullName` in place when it is
missing), the boolean verdict, the snackbar notice it issued (message with
severity), and the housing-service calls it made. -/
structure ValidationOutcome where
  applicant : ApartmentApplicant
  valid : Bool
  notice : Option (String × String)
  calls : List HousingCall
deriving DecidableEq

/-- Snackbar message of the generic add-person failure path. -/
def addPersonErrorMsg : String :=
  "Something went wrong while trying to add this person. Please try again."

/-- Snackbar message when the applicant list is full. -/
def maxApplicantsMsg : String :=
  "You cannot have more than " ++ toString MAX_NUM_APPLICANTS ++ " applicants"

/-- Snackbar message of the 401 debug path. -/
def authDebugMsg : String :=
  "Received a 401 (Unauthorized) response, which should not be possible in this case. Please try refreshing the page, or contact CTS for support."

/-- `isApplicantValid(applicant)`: the eligibility check run before adding an
applicant and before save/submit.  Checks, in order: profile present, roster
below `MAX_NUM_APPLICANTS`, then (after backfilling a missing
`Profile.fullName` from first and last name, with the double space of the
source template literal) person-type contains `'stu'`, gender equal to the
aggregate `Gender`, and finally no conflicting application id in the housing
service.  A thrown error other than `NotFoundError`/`AuthError` is swallowed
by the `return result` inside `finally`, yielding `false` with no notice. -/
def isApplicantValid (env : Env) (details : ApplicationDetails)
    (applicant : ApartmentApplicant) : ValidationOutcome :=
  match applicant.Profile with
  | none => ⟨applicant, false, some (addPersonErrorMsg, "error"), []⟩
  | some p =>
    if details.Applicants.length ≥ MAX_NUM_APPLICANTS then
      ⟨applicant, false, some (maxApplicantsMsg, "warning"), []⟩
    else
      let p' := match p.fullName with
        | some _ => p
        | none => { p with fullName := some (p.FirstName ++ "  " ++ p.LastName) }
      let applicant' := { applicant with Profile := some p' }
      if strIncludes p'.PersonType "stu" = false then
        ⟨applicant', false,
          some ("Could not add " ++ jsShowOptStr p'.fullName ++
            " as an applicant because they are not a student.", "warning"), []⟩
      else if p'.Gender ≠ details.Gender then
        ⟨applicant', false,
          some ("Could not add " ++ jsShowOptStr p'.fullName ++
            " as an applicant because they are not the same gender as the other applicants.",
            "warning"), []⟩
      else
        let call := HousingCall.getCurrentApplicationID (some p'.AD_Username)
        match env.getCurrentApplicationID (some p'.AD_Username) with
        | Except.ok existingAppID =>
          if existingAppID > 0 ∧ some existingAppID ≠ details.ApplicationID then
            ⟨applicant', false,
              some (jsShowOptStr p'.fullName ++
                " is already on another application for this semester.", "warning"), [call]⟩
          else
            ⟨applicant', true, none, [call]⟩
        | Except.error SvcError.notFound => ⟨applicant', true, none, [call]⟩
        | Except.error SvcError.auth =>
          ⟨applicant', false, some (authDebugMsg, "error"), [call]⟩
        | Except.error SvcError.other => ⟨applicant', false, none, [call]⟩

/-- Applies a validation notice to the state (`createSnackbar` was called
inside `isApplicantValid`). -/
def applyNotice (notice : Option (String × String)) (st : AppState) : AppState :=
  match notice with
  | some (m, sev) => createSnackbar m sev st
  | none => st

/-- The applicant object built by `addApplicant` for a resolved profile. -/
def newApplicantObject (details : ApplicationDetails) (username : String)
    (profile : StudentProfileInfo) : ApartmentApplicant :=
  { ApplicationID := details.ApplicationID
    Profile := some profile
    Username := username
    OffCampusProgram := "" }

/-- `addApplicant(newApplicantUsername)`: resolves the profile through the
identity service (any failure lands in the catch-all snackbar), rejects a
username already in the list, otherwise runs `isApplicantValid` and, on
success, appends the (possibly fullName-backfilled) applicant and marks
unsaved changes. -/
def addApplicant (env : Env) (newApplicantUsername : String) (st : AppState) : AppState :=
  match env.getProfileInfo newApplicantUsername with
  | Except.error _ => createSnackbar addPersonErrorMsg "error" st
  | Except.ok newApplicantProfile =>
    if st.applicationDetails.Applicants.any
        (fun applicant => (applicant.Profile.map StudentProfileInfo.AD_Username)
          == some newApplicantUsername) then
      createSnackbar (jsShowOptStr newApplicantProfile.fullName ++ " is already in the list.")
        "info" st
    else
      let v := isApplicantValid env st.applicationDetails
        (newApplicantObject st.applicationDetails newApplicantUsername newApplicantProfile)
      let st' := applyNotice v.notice st
      if v.valid then
        { st' with
          applicationDetails :=
            { st'.applicationDetails with
              Applicants := st'.applicationDetails.Applicants ++ [v.applicant] }
          unsavedChanges := true }
      else st'

/-- `handleApplicantRemove(usernameToRemove)`: removes every applicant whose
profile username matches; the JS truthiness guard `if (usernameToRemove)`
makes the empty string a no-op. -/
def handleApplicantRemove (usernameToRemove : String) (st : AppState) : AppState :=
  if usernameToRemove ≠ "" then
    { st with
      applicationDetails :=
        { st.applicationDetails with
          Applicants := st.applicationDetails.Applicants.filter
            (fun applicant => (applicant.Profile.map StudentProfileInfo.AD_Username)
              != some usernameToRemove) }
      unsavedChanges := true }
  else st

/-- `initializeNewApplication()` inside `loadApplication`: a fresh draft with
the current member as sole applicant and editor. -/
def initializeNewApplication (env : Env) (st : AppState) : AppState :=
  { st with
    applicationDetails :=
      { BLANK_APPLICATION_DETAILS with
        EditorProfile := some env.userProfile
        Gender := env.userProfile.Gender
        Applicants := [{ ApplicationID := none
                         Profile := some env.userProfile
                         Username := env.userProfile.AD_Username
                         OffCampusProgram := "" }] }
    canEditApplication := true
    unsavedChanges := true }

/-- `loadApplication()`: queries the member's current application id; a
positive id loads the full record and derives edit rights, a missing one
initializes a fresh draft, a 401 shows the debug snackbar, and any other
failure is swallowed by the `return result` inside `finally` (which also
always clears `newEditorProfile`).  Returns the state, the housing calls
made, and the `result` boolean. -/
def loadApplication (env : Env) (st : AppState) : AppState × List HousingCall × Bool :=
  let c0 := HousingCall.getCurrentApplicationID none
  match env.getCurrentApplicationID none with
  | Except.ok newApplicationID =>
    if newApplicationID > 0 then
      let c1 := HousingCall.getApartmentApplication newApplicationID
      match env.getApartmentApplication newApplicationID with
      | Except.ok newApplicationDetails =>
        ({ st with
            applicationDetails := newApplicationDetails
            canEditApplication :=
              (newApplicationDetails.EditorProfile.map StudentProfileInfo.AD_Username)
                == some env.userProfile.AD_Username
            unsavedChanges := false
            newEditorProfile := none }, [c0, c1], true)
      | Except.error SvcError.notFound =>
        ({ initializeNewApplication env st with newEditorProfile := none }, [c0, c1], false)
      | Except.error SvcError.auth =>
        ({ createSnackbar authDebugMsg "error" st with newEditorProfile := none }, [c0, c1], false)
      | Except.error SvcError.other =>
        ({ st with newEditorProfile := none }, [c0, c1], false)
    else
      ({ initializeNewApplication env st with newEditorProfile := none }, [c0], false)
  | Except.error SvcError.notFound =>
    ({ initializeNewApplication env st with newEditorProfile := none }, [c0], false)
  | Except.error SvcError.auth =>
    ({ createSnackbar authDebugMsg "error" st with newEditorProfile := none }, [c0], false)
  | Except.error SvcError.other =>
    ({ st with newEditorProfile := none }, [c0], false)

/-- Snackbar message of the zero-applicants save rejection. -/
def noApplicantsMsg : String :=
  "Error: There are no applicants on this application. This should not be possible. Please refresh the page and try again."

/-- The snackbar produced by the zero-applicants save rejection. -/
def noApplicantsSnackbar : SnackbarState :=
  { message := noApplicantsMsg, severity := "error", isOpen := true }

/-- `saveApartmentApplication(applicationDetails)`: sets the busy flag, then
rejects locally when there are no applicants; otherwise validates every
applicant (`Promise.all`, modelled in list order), and only when all are
valid calls the housing save endpoint.  A truthy id adopts the new
`ApplicationID`, flips the flag to success, clears the dirty bit and reloads;
a falsy id or a thrown error produces an error snackbar and an error flag.
Returns the state, the housing-service calls made, and the JS `result` value
(`none` models `null`).  The `setTimeout` bookkeeping of the `finally` block
is real-time behaviour outside the embedding. -/
def saveApartmentApplication (env : Env) (applicationDetails : ApplicationDetails)
    (st : AppState) : AppState × List HousingCall × Option Int :=
  let st1 := { st with saving := SavingFlag.inProgress }
  if applicationDetails.Applicants.length < 1 then
    ({ st1 with snackbar := noApplicantsSnackbar, saving := SavingFlag.error }, [], none)
  else
    let vs := applicationDetails.Applicants.map (isApplicantValid env applicationDetails)
    let vcalls := vs.foldl (fun acc v => acc ++ v.calls) []
    let st2 := vs.foldl (fun s v => applyNotice v.notice s) st1
    if vs.all ValidationOutcome.valid then
      match env.saveApartmentApplication applicationDetails with
      | Except.ok result =>
        if result ≠ 0 then
          let st3 := { st2 with
            applicationDetails :=
              { st2.applicationDetails with ApplicationID := some result }
            saving := SavingFlag.success
            unsavedChanges := false }
          let load := loadApplication env st3
          (load.1, vcalls ++ [HousingCall.saveApartmentApplication] ++ load.2.1, some result)
        else
          ({ st2 with
              snackbar := { message := "Something went wrong while trying to save the application."
                            severity := "error", isOpen := true }
              saving := SavingFlag.error },
            vcalls ++ [HousingCall.saveApartmentApplication], some 0)
      | Except.error e =>
        let msg := match e with
          | SvcError.auth => "You are not authorized to save changes to this application."
          | SvcError.notFound => "Error: This application was not found in the database."
          | SvcError.other => "Something went wrong while trying to save the application."
        ({ st2 with
            snackbar := { message := msg, severity := "error", isOpen := true }
            saving := SavingFlag.error },
          vcalls ++ [HousingCall.saveApartmentApplication], none)
    else
      (st2, vcalls, none)

/-! ### JavaScript number and nullish-coalescing model (for the
`Number(hallRankValue) ?? ...` expression of `handleHallInputChange`) -/

/-- A JavaScript number restricted to the values relevant here: `NaN` or an
integer. -/
inductive JSNum where
  | nan
  | ofInt (n : Int)
deriving DecidableEq

/-- A JavaScript value: `undefined`, `null`, a number or a string. -/
inductive JSVal where
  | undef
  | null
  | num (x : JSNum)
  | str (s : String)
deriving DecidableEq

/-- Drops leading and trailing spaces of a string (the JS `trim` on the
space-only whitespace relevant here). -/
def trimSpaces (s : String) : String :=
  String.mk (((s.data.dropWhile (· = ' ')).reverse.dropWhile (· = ' ')).reverse)

/-- Parses a nonempty all-digit character list. -/
def parseDigitsAux (acc : Nat) : List Char → Option Nat
  | [] => some acc
  | c :: cs => if c.isDigit then parseDigitsAux (acc * 10 + (c.toNat - 48)) cs else none

/-- Parses a digit string; `none` when empty or containing a non-digit. -/
def parseDigits : List Char → Option Nat
  | [] => none
  | c :: cs => parseDigitsAux 0 (c :: cs)

/-- Models the JavaScript `Number()` conversion of a string, restricted to
optionally sign-prefixed integer numerals: surrounding spaces are trimmed,
the empty string converts to `0`, and any string that is not an integer
numeral converts to `NaN`. -/
def jsStringToNumber (s : String) : JSNum :=
  let t := trimSpaces s
  if t = "" then JSNum.ofInt 0
  else
    match t.data with
    | '-' :: rest =>
      match parseDigits rest with
      | some n => JSNum.ofInt (-(n : Int))
      | none => JSNum.nan
    | '+' :: rest =>
      match parseDigits rest with
      | some n => JSNum.ofInt (n : Int)
      | none => JSNum.nan
    | ds =>
      match parseDigits ds with
      | some n => JSNum.ofInt (n : Int)
      | none => JSNum.nan

/-- Models the JavaScript `Number()` conversion: the result is always a
number — never `null` or `undefined`. -/
def jsNumberConv : JSVal → JSNum
  | JSVal.undef => JSNum.nan
  | JSVal.null => JSNum.ofInt 0
  | JSVal.num x => x
  | JSVal.str s => jsStringToNumber s

/-- The JavaScript nullish-coalescing operator `a ?? b`: selects `b` exactly
when `a` is `null` or `undefined`. -/
def jsNullish (a b : JSVal) : JSVal :=
  match a with
  | JSVal.undef => b
  | JSVal.null => b
  | x => x

/-- The `HallRank` expression of `handleHallInputChange`:
`Number(hallRankValue) ?? applicationDetails.ApartmentChoices[index].HallRank`. -/
def hallRankExpr (hallRankValue : JSVal) (prevRank : JSNum) : JSVal :=
  jsNullish (JSVal.num (jsNumberConv hallRankValue)) (JSVal.num prevRank)

/-- The left operand of the `??` is always a number, so the fallback is never
selected. -/
theorem hallRankExpr_never_fallback (v : JSVal) (prev : JSNum) :
    hallRankExpr v prev = JSVal.num (jsNumberConv v) := rfl

/-! ### Bridge lemmas for the index-based filter and map -/

theorem filterIdxNe_of_lt : ∀ (cs : List ApartmentChoice) (i k : Nat), i < k →
    filterIdxNe i k cs = cs := by
  intro cs
  induction cs with
  | nil => intro i k _; rfl
  | cons c cs ih =>
    intro i k hik
    have hne : k ≠ i := fun h => absurd (h ▸ hik) (lt_irrefl i)
    simp only [filterIdxNe, if_neg hne, ih i (k + 1) (Nat.lt_succ_of_lt hik)]

theorem filterIdxNe_eq_eraseIdx : ∀ (cs : List ApartmentChoice) (i k : Nat),
    filterIdxNe (k + i) k cs = cs.eraseIdx i := by
  intro cs
  induction cs with
  | nil => intro i k; rfl
  | cons c cs ih =>
    intro i k
    cases i with
    | zero =>
      simp only [Nat.add_zero, filterIdxNe, if_pos rfl, List.eraseIdx]
      exact filterIdxNe_of_lt cs k (k + 1) (Nat.lt_succ_self k)
    | succ j =>
      have harg : k + (j + 1) = (k + 1) + j := by omega
      simp only [filterIdxNe, List.eraseIdx, harg, ih j (k + 1)]
      rw [if_neg (by omega : ¬ k = (k + 1) + j)]

theorem mapSetIdx_of_lt : ∀ (cs : List ApartmentChoice) (x : ApartmentChoice) (i k : Nat),
    i < k → mapSetIdx i x k cs = cs := by
  intro cs x
  induction cs with
  | nil => intro i k _; rfl
  | cons c cs ih =>
    intro i k hik
    have hne : k ≠ i := fun h => absurd (h ▸ hik) (lt_irrefl i)
    simp only [mapSetIdx, if_neg hne, ih i (k + 1) (Nat.lt_succ_of_lt hik)]

theorem mapSetIdx_eq_set : ∀ (cs : List ApartmentChoice) (x : ApartmentChoice) (i k : Nat),
    mapSetIdx (k + i) x k cs = cs.set i x := by
  intro cs x
  induction cs with
  | nil => intro i k; rfl
  | cons c cs ih =>
    intro i k
    cases i with
    | zero =>
      simp only [Nat.add_zero, mapSetIdx, List.set]
      rw [mapSetIdx_of_lt cs x k (k + 1) (Nat.lt_succ_self k), if_pos trivial]
    | succ j =>
      have harg : k + (j + 1) = (k + 1) + j := by omega
      simp only [mapSetIdx, List.set, harg, ih j (k + 1)]
      rw [if_neg (by omega : ¬ k = (k + 1) + j)]

theorem filterIdxNe_zero (cs : List ApartmentChoice) (i : Nat) :
    filterIdxNe i 0 cs = cs.eraseIdx i := by
  have h := filterIdxNe_eq_eraseIdx cs i 0
  rwa [Nat.zero_add] at h

theorem mapSetIdx_zero (cs : List ApartmentChoice) (x : ApartmentChoice) (i : Nat) :
    mapSetIdx i x 0 cs = cs.set i x := by
  have h := mapSetIdx_eq_set cs x i 0
  rwa [Nat.zero_add] at h

/-- `hallRemoveList` in closed form: erase the entry at `indexToRemove`, then
clamp every rank above the new length down to the new length. -/
theorem hallRemoveList_eq_eraseIdx (indexToRemove : Nat) (cs : List ApartmentChoice) :
    hallRemoveList indexToRemove cs =
      (cs.eraseIdx indexToRemove).map (fun c =>
        if c.HallRank > ((cs.eraseIdx indexToRemove).length : Int) then
          { c with HallRank := ((cs.eraseIdx indexToRemove).length : Int) }
        else c) := by
  unfold hallRemoveList
  rw [filterIdxNe_zero]

/-! ### Permutation helpers -/

theorem perm_get_cons_eraseIdx :
    ∀ (cs : List ApartmentChoice) (i : Nat) (h : i < cs.length),
      cs.Perm (cs.get ⟨i, h⟩ :: cs.eraseIdx i) := by
  intro cs
  induction cs with
  | nil => intro i h; exact absurd h (Nat.not_lt_zero i)
  | cons c cs ih =>
    intro i h
    cases i with
    | zero => exact List.Perm.refl _
    | succ j =>
      have hj : j < cs.length := Nat.lt_of_succ_lt_succ h
      exact ((ih j hj).cons c).trans (List.Perm.swap (cs.get ⟨j, hj⟩) c (cs.eraseIdx j))

theorem perm_getElem_cons_eraseIdx (cs : List ApartmentChoice) (i : Nat) (h : i < cs.length) :
    cs.Perm (cs[i] :: cs.eraseIdx i) := by
  have := perm_get_cons_eraseIdx cs i h
  simpa [List.get_eq_getElem] using this

theorem perm_set_cons_eraseIdx :
    ∀ (cs : List ApartmentChoice) (i : Nat) (x : ApartmentChoice), i < cs.length →
      (cs.set i x).Perm (x :: cs.eraseIdx i) := by
  intro cs
  induction cs with
  | nil => intro i x h; exact absurd h (Nat.not_lt_zero i)
  | cons c cs ih =>
    intro i x h
    cases i with
    | zero => exact List.Perm.refl _
    | succ j =>
      have hj : j < cs.length := Nat.lt_of_succ_lt_succ h
      exact ((ih j x hj).cons c).trans (List.Perm.swap x c (cs.eraseIdx j))

/-! ### The hall-choice invariants of the specification -/

/-- Two choices may share a `HallName` only when it is empty. -/
def nameOK (a b : ApartmentChoice) : Prop :=
  a.HallName = b.HallName → a.HallName = ""

instance : DecidableRel nameOK := fun a b => by
  unfold nameOK
  infer_instance

theorem nameOK_symm : ∀ {a b : ApartmentChoice}, nameOK a b → nameOK b a := by
  intro a b h heq
  exact heq.trans (h heq.symm)

/-- No two choices share a non-empty `HallName`. -/
def namesUnique (cs : List ApartmentChoice) : Prop :=
  List.Pairwise nameOK cs

instance : ∀ cs, Decidable (namesUnique cs) := fun cs => by
  unfold namesUnique
  infer_instance

/-- The `HallRank` values are exactly the contiguous integers `1..len`. -/
def ranksContiguous (cs : List ApartmentChoice) : Prop :=
  (cs.map ApartmentChoice.HallRank).Perm
    ((List.range cs.length).map (fun k => Int.ofNat (k + 1)))

instance : ∀ cs, Decidable (ranksContiguous cs) := fun cs => by
  unfold ranksContiguous
  infer_instance

theorem namesUnique_of_perm {cs ds : List ApartmentChoice} (p : cs.Perm ds) :
    namesUnique cs → namesUnique ds := by
  intro h
  exact (List.Perm.pairwise_iff (fun hr => nameOK_symm hr) p).mp h

theorem namesUnique_sortHalls (cs : List ApartmentChoice) :
    namesUnique cs → namesUnique (sortHalls cs) := by
  intro h
  exact namesUnique_of_perm (List.perm_insertionSort hallLe cs).symm h

/-! ### Claim C2 -/

/-- C2: for every list of `ApartmentChoices` and every valid index `i`,
`removeChoice(i)` removes exactly the entry at index `i`; every remaining
entry whose `HallRank` exceeds the new length has it set to the new length,
every remaining entry whose `HallRank` is within the new length is kept
unchanged, and hence every remaining rank is at most the new length. -/
theorem c2_removeChoice_spec (i : Nat) (cs : List ApartmentChoice) (hi : i < cs.length) :
    (hallRemoveList i cs).length = cs.length - 1 ∧
    (∀ (j : Nat) (c : ApartmentChoice), (cs.eraseIdx i)[j]? = some c →
      (c.HallRank > ((cs.length - 1 : Nat) : Int) →
        (hallRemoveList i cs)[j]? = some { c with HallRank := ((cs.length - 1 : Nat) : Int) }) ∧
      (c.HallRank ≤ ((cs.length - 1 : Nat) : Int) → (hallRemoveList i cs)[j]? = some c)) ∧
    (∀ c ∈ hallRemoveList i cs, c.HallRank ≤ ((cs.length - 1 : Nat) : Int)) := by
  have hlen : (cs.eraseIdx i).length = cs.length - 1 := by
    rw [List.length_eraseIdx]
    simp [hi]
  refine ⟨?_, ?_, ?_⟩
  · rw [hallRemoveList_eq_eraseIdx, List.length_map, hlen]
  · intro j c hc
    constructor
    · intro hgt
      rw [hallRemoveList_eq_eraseIdx, List.getElem?_map, hc]
      simp only [Option.map_some']
      rw [if_pos (by rw [hlen]; exact hgt), hlen]
    · intro hle
      rw [hallRemoveList_eq_eraseIdx, List.getElem?_map, hc]
      simp only [Option.map_some']
      rw [if_neg (by rw [hlen]; exact not_lt_of_le hle)]
  · intro c hc
    rw [hallRemoveList_eq_eraseIdx] at hc
    obtain ⟨x, _hx, rfl⟩ := List.mem_map.mp hc
    by_cases h : x.HallRank > ((cs.eraseIdx i).length : Int)
    · rw [if_pos h]
      simp [hlen]
    · rw [if_neg h]
      rw [hlen] at h
      exact not_lt.mp h

/-- Witness for C2 at a concrete input. -/
theorem c2_removeChoice_spec_witness :
    (0 : Nat) < ([⟨none, 1, "A"⟩, ⟨none, 3, "B"⟩] : List ApartmentChoice).length ∧
    ((hallRemoveList 0 [⟨none, 1, "A"⟩, ⟨none, 3, "B"⟩]).length =
        ([⟨none, 1, "A"⟩, ⟨none, 3, "B"⟩] : List ApartmentChoice).length - 1 ∧
      (∀ (j : Nat) (c : ApartmentChoice),
          (([⟨none, 1, "A"⟩, ⟨none, 3, "B"⟩] : List ApartmentChoice).eraseIdx 0)[j]? = some c →
        (c.HallRank > ((([⟨none, 1, "A"⟩, ⟨none, 3, "B"⟩] : List ApartmentChoice).length - 1 : Nat) : Int) →
          (hallRemoveList 0 [⟨none, 1, "A"⟩, ⟨none, 3, "B"⟩])[j]? =
            some { c with HallRank := ((([⟨none, 1, "A"⟩, ⟨none, 3, "B"⟩] : List ApartmentChoice).length - 1 : Nat) : Int) }) ∧
        (c.HallRank ≤ ((([⟨none, 1, "A"⟩, ⟨none, 3, "B"⟩] : List ApartmentChoice).length - 1 : Nat) : Int) →
          (hallRemoveList 0 [⟨none, 1, "A"⟩, ⟨none, 3, "B"⟩])[j]? = some c)) ∧
      (∀ c ∈ hallRemoveList 0 [⟨none, 1, "A"⟩, ⟨none, 3, "B"⟩],
        c.HallRank ≤ ((([⟨none, 1, "A"⟩, ⟨none, 3, "B"⟩] : List ApartmentChoice).length - 1 : Nat) : Int))) :=
  ⟨by decide, c2_removeChoice_spec 0 [⟨none, 1, "A"⟩, ⟨none, 3, "B"⟩] (by decide)⟩

/-! ### Claim C9 -/

/-- A state with no unsaved changes, used as concrete input. -/
def quietState : AppState :=
  { applicationDetails := BLANK_APPLICATION_DETAILS
    unsavedChanges := false
    canEditApplication := true
    saving := SavingFlag.notSaving
    snackbar := { message := "", severity := "", isOpen := false }
    newEditorProfile := none }

/-- C9 (counterexample): `addChoice` does not mark the aggregate dirty — on a
state with `unsavedChanges = false` the flag is still `false` afterwards,
contradicting the claim that every successful `addChoice` marks unsaved
changes. -/
theorem c9_counterexample : ¬ ((handleHallAdd quietState).unsavedChanges = true) := by
  decide

/-- C9 (amended): `addChoice()` appends exactly one placeholder entry with
`HallRank = len + 1` and an empty `HallName`, leaves all existing entries and
the rest of the aggregate unchanged — but it leaves `unsavedChanges` exactly
as it was (it does not mark the aggregate dirty). -/
theorem c9_amended_addChoice (st : AppState) :
    (handleHallAdd st).applicationDetails.ApartmentChoices =
      st.applicationDetails.ApartmentChoices ++
        [{ ApplicationID := st.applicationDetails.ApplicationID
           HallRank := (st.applicationDetails.ApartmentChoices.length : Int) + 1
           HallName := "" }] ∧
    (handleHallAdd st).applicationDetails.Applicants = st.applicationDetails.Applicants ∧
    (handleHallAdd st).applicationDetails.ApplicationID = st.applicationDetails.ApplicationID ∧
    (handleHallAdd st).applicationDetails.EditorProfile = st.applicationDetails.EditorProfile ∧
    (handleHallAdd st).unsavedChanges = st.unsavedChanges ∧
    (handleHallAdd st).snackbar = st.snackbar ∧
    (handleHallAdd st).saving = st.saving :=
  ⟨rfl, rfl, rfl, rfl, rfl, rfl, rfl⟩

/-! ### Claim C10 -/

/-- C10: in `handleHallInputChange`, `Number(hallRankValue) ?? previousRank`
never selects the fallback (the left operand is always a number), and a
non-parseable rank input stores `NaN` rather than the previous rank. -/
theorem c10_rank_nan (s : String) (prev : Int) (hs : jsStringToNumber s = JSNum.nan) :
    hallRankExpr (JSVal.str s) (JSNum.ofInt prev) = JSVal.num JSNum.nan ∧
    hallRankExpr (JSVal.str s) (JSNum.ofInt prev) ≠ JSVal.num (JSNum.ofInt prev) ∧
    (∀ (v : JSVal) (q : JSNum), hallRankExpr v q = JSVal.num (jsNumberConv v)) := by
  have h1 : hallRankExpr (JSVal.str s) (JSNum.ofInt prev) = JSVal.num JSNum.nan := by
    rw [hallRankExpr_never_fallback]
    simp [jsNumberConv, hs]
  refine ⟨h1, ?_, fun v q => hallRankExpr_never_fallback v q⟩
  rw [h1]
  intro hcontra
  exact JSNum.noConfusion (JSVal.num.inj hcontra)

/-- Witness for C10 at the concrete non-numeric input `"abc"`. -/
theorem c10_rank_nan_witness :
    jsStringToNumber "abc" = JSNum.nan ∧
    (hallRankExpr (JSVal.str "abc") (JSNum.ofInt 1) = JSVal.num JSNum.nan ∧
      hallRankExpr (JSVal.str "abc") (JSNum.ofInt 1) ≠ JSVal.num (JSNum.ofInt 1) ∧
      (∀ (v : JSVal) (q : JSNum), hallRankExpr v q = JSVal.num (jsNumberConv v))) :=
  ⟨by decide, c10_rank_nan "abc" 1 (by decide)⟩

/-! ### Claim C1 -/

/-- A well-formed hall-choice list: unique non-empty names, ranks `1..3`. -/
def threeHalls : List ApartmentChoice :=
  [⟨none, 1, "A"⟩, ⟨none, 2, "B"⟩, ⟨none, 3, "C"⟩]

/-- C1 (counterexample): starting from a list satisfying both claimed
invariants, `removeChoice(0)` yields ranks `[2, 2]` — not the contiguous
integers `1..2` — so the rank part of the invariant does not survive
removal. -/
theorem c1_counterexample :
    namesUnique threeHalls ∧ ranksContiguous threeHalls ∧
    ¬ ranksContiguous (hallRemoveList 0 threeHalls) := by
  decide

theorem namesUnique_hallAddList (appID : Option Int) (cs : List ApartmentChoice)
    (hn : namesUnique cs) : namesUnique (hallAddList appID cs) := by
  unfold hallAddList namesUnique
  rw [List.pairwise_append]
  refine ⟨hn, List.pairwise_singleton _ _, ?_⟩
  intro a _ha b hb
  rw [List.mem_singleton] at hb
  subst hb
  intro heq
  exact heq

theorem ranksContiguous_hallAddList (appID : Option Int) (cs : List ApartmentChoice)
    (hr : ranksContiguous cs) : ranksContiguous (hallAddList appID cs) := by
  unfold ranksContiguous at hr ⊢
  unfold hallAddList
  simp only [List.map_append, List.length_append, List.length_singleton, List.map_cons,
    List.map_nil, List.range_succ, List.map_append]
  have hcast : (((cs.length : Int) + 1 : Int)) = Int.ofNat (cs.length + 1) := by
    simp [Int.ofNat_succ]
  rw [hcast]
  exact hr.append_right _

theorem hallRemoveList_rank_le (i : Nat) (cs : List ApartmentChoice) :
    ∀ c ∈ hallRemoveList i cs, c.HallRank ≤ ((hallRemoveList i cs).length : Int) := by
  intro c hc
  unfold hallRemoveList at hc ⊢
  rw [List.length_map]
  obtain ⟨x, _hx, rfl⟩ := List.mem_map.mp hc
  by_cases h : x.HallRank > ((filterIdxNe i 0 cs).length : Int)
  · rw [if_pos h]
  · rw [if_neg h]
    exact not_lt.mp h

theorem namesUnique_hallRemoveList (i : Nat) (cs : List ApartmentChoice)
    (hn : namesUnique cs) : namesUnique (hallRemoveList i cs) := by
  rw [hallRemoveList_eq_eraseIdx]
  unfold namesUnique
  rw [List.pairwise_map]
  have herased : List.Pairwise nameOK (cs.eraseIdx i) :=
    List.Pairwise.sublist (List.eraseIdx_sublist cs i) hn
  refine herased.imp ?_
  intro a b hab
  by_cases ha : a.HallRank > ((cs.eraseIdx i).length : Int) <;>
    by_cases hb : b.HallRank > ((cs.eraseIdx i).length : Int) <;>
      simp only [if_pos, if_neg, ha, hb, ite_true, ite_false] <;> exact hab

theorem namesUnique_set (cs : List ApartmentChoice) (i : Nat) (x : ApartmentChoice)
    (hn : namesUnique cs)
    (hok : (∃ h : i < cs.length, cs[i].HallName = x.HallName) ∨
      (∀ c ∈ cs, c.HallName ≠ x.HallName)) :
    namesUnique (cs.set i x) := by
  by_cases hi : i < cs.length
  · apply namesUnique_of_perm (perm_set_cons_eraseIdx cs i x hi).symm
    have htail : List.Pairwise nameOK (cs.eraseIdx i) :=
      List.Pairwise.sublist (List.eraseIdx_sublist cs i) hn
    rw [namesUnique, List.pairwise_cons]
    refine ⟨?_, htail⟩
    rcases hok with ⟨h, hname⟩ | hnone
    · have hpc : namesUnique (cs[i] :: cs.eraseIdx i) :=
        namesUnique_of_perm (perm_getElem_cons_eraseIdx cs i hi) hn
      have hhead := (List.pairwise_cons.mp hpc).1
      intro b hb heq
      have h1 : cs[i].HallName = b.HallName := hname.trans heq
      have h2 : cs[i].HallName = "" := hhead b hb h1
      exact hname.symm.trans h2
    · intro b hb heq
      have hbcs : b ∈ cs := (List.eraseIdx_sublist cs i).subset hb
      exact absurd heq.symm (hnone b hbcs)
  · rw [List.set_eq_of_length_le (le_of_not_lt hi)]
    exact hn

theorem namesUnique_hallEditList (appID : Option Int) (hallRankValue : Int)
    (hallNameValue : String) (index : Nat) (cs : List ApartmentChoice)
    (hn : namesUnique cs) :
    namesUnique (hallEditList appID hallRankValue hallNameValue index cs).1 := by
  unfold hallEditList
  by_cases hcond : (cs[index]?).map ApartmentChoice.HallName ≠ some hallNameValue ∧
      cs.any (fun hallInfo => hallInfo.HallName == hallNameValue) = true
  · rw [if_pos hcond]
    exact namesUnique_sortHalls cs hn
  · rw [if_neg hcond]
    apply namesUnique_sortHalls
    rw [mapSetIdx_zero]
    apply namesUnique_set cs index _ hn
    rw [not_and_or, not_not] at hcond
    rcases hcond with hname | hany
    · left
      have hi : index < cs.length := by
        by_contra hge
        rw [List.getElem?_eq_none (le_of_not_lt hge)] at hname
        exact Option.noConfusion hname
      refine ⟨hi, ?_⟩
      rw [List.getElem?_eq_getElem hi] at hname
      exact Option.some.inj hname
    · right
      intro c hc
      rw [Bool.not_eq_true] at hany
      have := List.any_eq_false.mp hany c hc
      simpa using this

/-- C1 (amended): starting from a list with unique non-empty hall names,
every mutation preserves that uniqueness; `addChoice` also preserves the
contiguous-ranks invariant, but `removeChoice` guarantees only that every
remaining rank is at most the new length (ranks need not stay unique or
contiguous, as the counterexample shows), and `editChoice` stores the
user-given rank without any range constraint. -/
theorem c1_amended_invariants (appID : Option Int) (hallRankValue : Int)
    (hallNameValue : String) (i : Nat) (cs : List ApartmentChoice)
    (hn : namesUnique cs) :
    (namesUnique (hallAddList appID cs) ∧
      (ranksContiguous cs → ranksContiguous (hallAddList appID cs))) ∧
    (namesUnique (hallRemoveList i cs) ∧
      ∀ c ∈ hallRemoveList i cs, c.HallRank ≤ ((hallRemoveList i cs).length : Int)) ∧
    namesUnique (hallEditList appID hallRankValue hallNameValue i cs).1 :=
  ⟨⟨namesUnique_hallAddList appID cs hn, ranksContiguous_hallAddList appID cs⟩,
    ⟨namesUnique_hallRemoveList i cs hn, hallRemoveList_rank_le i cs⟩,
    namesUnique_hallEditList appID hallRankValue hallNameValue i cs hn⟩

/-- Witness for C1 (amended) at a concrete input. -/
theorem c1_amended_invariants_witness :
    namesUnique threeHalls ∧
    ((namesUnique (hallAddList none threeHalls) ∧
        (ranksContiguous threeHalls → ranksContiguous (hallAddList none threeHalls))) ∧
      (namesUnique (hallRemoveList 0 threeHalls) ∧
        ∀ c ∈ hallRemoveList 0 threeHalls,
          c.HallRank ≤ ((hallRemoveList 0 threeHalls).length : Int)) ∧
      namesUnique (hallEditList none 5 "D" 0 threeHalls).1) :=
  ⟨by decide, c1_amended_invariants none 5 "D" 0 threeHalls (by decide)⟩

/-! ### Claim C3 -/

theorem handleHallInputChange_pos (st : AppState) (hallRankValue : Int)
    (hallNameValue : String) (index : Nat)
    (hc : (st.applicationDetails.ApartmentChoices[index]?).map ApartmentChoice.HallName ≠
          some hallNameValue ∧
        st.applicationDetails.ApartmentChoices.any
          (fun hallInfo => hallInfo.HallName == hallNameValue) = true) :
    handleHallInputChange hallRankValue hallNameValue index st =
      createSnackbar (hallNameValue ++ " is already in the list.") "info"
        { st with
          applicationDetails :=
            { st.applicationDetails with
              ApartmentChoices := sortHalls st.applicationDetails.ApartmentChoices }
          unsavedChanges := true } := by
  unfold handleHallInputChange hallEditList
  rw [if_pos hc]
  rfl

theorem handleHallInputChange_neg (st : AppState) (hallRankValue : Int)
    (hallNameValue : String) (index : Nat)
    (hc : ¬ ((st.applicationDetails.ApartmentChoices[index]?).map ApartmentChoice.HallName ≠
          some hallNameValue ∧
        st.applicationDetails.ApartmentChoices.any
          (fun hallInfo => hallInfo.HallName == hallNameValue) = true)) :
    handleHallInputChange hallRankValue hallNameValue index st =
      { st with
        applicationDetails :=
          { st.applicationDetails with
            ApartmentChoices := sortHalls (mapSetIdx index
              { ApplicationID := st.applicationDetails.ApplicationID
                HallRank := hallRankValue
                HallName := hallNameValue } 0 st.applicationDetails.ApartmentChoices) }
        unsavedChanges := true } := by
  unfold handleHallInputChange hallEditList
  rw [if_neg hc]
  rfl

/-- C3 (amended): an `editChoice(index, rank, name)` is rejected exactly when
the name differs from the entry currently at `index` and already occurs in
the list under plain (untrimmed) case-sensitive string equality; on rejection
the multiset of entries is unchanged, the resulting order is sorted by
`(HallRank, HallName)` and the duplicate-hall info notice is reported; on
success the entry at `index` is replaced by the new choice and the whole list
is re-sorted.  (Both branches mark unsaved changes.) -/
theorem c3_amended_editChoice (st : AppState) (hallRankValue : Int)
    (hallNameValue : String) (index : Nat)
    (_hi : index < st.applicationDetails.ApartmentChoices.length) :
    (((st.applicationDetails.ApartmentChoices[index]?).map ApartmentChoice.HallName ≠
          some hallNameValue ∧
        st.applicationDetails.ApartmentChoices.any
          (fun hallInfo => hallInfo.HallName == hallNameValue) = true) →
      (handleHallInputChange hallRankValue hallNameValue index
            st).applicationDetails.ApartmentChoices.Perm
          st.applicationDetails.ApartmentChoices ∧
      List.Sorted hallLe (handleHallInputChange hallRankValue hallNameValue index
          st).applicationDetails.ApartmentChoices ∧
      (handleHallInputChange hallRankValue hallNameValue index st).snackbar =
        { message := hallNameValue ++ " is already in the list."
          severity := "info", isOpen := true }) ∧
    ((¬ ((st.applicationDetails.ApartmentChoices[index]?).map ApartmentChoice.HallName ≠
          some hallNameValue ∧
        st.applicationDetails.ApartmentChoices.any
          (fun hallInfo => hallInfo.HallName == hallNameValue) = true)) →
      (handleHallInputChange hallRankValue hallNameValue index
            st).applicationDetails.ApartmentChoices.Perm
          (st.applicationDetails.ApartmentChoices.set index
            { ApplicationID := st.applicationDetails.ApplicationID
              HallRank := hallRankValue
              HallName := hallNameValue }) ∧
      List.Sorted hallLe (handleHallInputChange hallRankValue hallNameValue index
          st).applicationDetails.ApartmentChoices ∧
      (handleHallInputChange hallRankValue hallNameValue index st).snackbar = st.snackbar) ∧
    (handleHallInputChange hallRankValue hallNameValue index st).unsavedChanges = true := by
  refine ⟨fun hc => ?_, fun hc => ?_, ?_⟩
  · rw [handleHallInputChange_pos st hallRankValue hallNameValue index hc]
    exact ⟨List.perm_insertionSort hallLe _, List.sorted_insertionSort hallLe _, rfl⟩
  · rw [handleHallInputChange_neg st hallRankValue hallNameValue index hc]
    refine ⟨?_, List.sorted_insertionSort hallLe _, rfl⟩
    rw [show (sortHalls (mapSetIdx index _ 0 st.applicationDetails.ApartmentChoices)) =
      sortHalls (st.applicationDetails.ApartmentChoices.set index _) from by rw [mapSetIdx_zero]]
    exact List.perm_insertionSort hallLe _
  · by_cases hc : (st.applicationDetails.ApartmentChoices[index]?).map ApartmentChoice.HallName ≠
          some hallNameValue ∧
        st.applicationDetails.ApartmentChoices.any
          (fun hallInfo => hallInfo.HallName == hallNameValue) = true
    · rw [handleHallInputChange_pos st hallRankValue hallNameValue index hc]
      rfl
    · rw [handleHallInputChange_neg st hallRankValue hallNameValue index hc]

/-- Concrete state for the C3 counterexample and witness: hall list
`[(1, "North"), (2, "")]`. -/
def northState : AppState :=
  { quietState with
    applicationDetails :=
      { BLANK_APPLICATION_DETAILS with
        ApartmentChoices := [⟨none, 1, "North"⟩, ⟨none, 2, ""⟩] } }

/-- C3 (counterexample): editing index 1 to the name `"North "` (trailing
space) duplicates the entry `"North"` at index 0 up to trimming, and the name
differs from the one currently at index 1 — so the claim (duplicate test on
trimmed names) demands a rejection with the content unchanged.  The code
compares raw strings, accepts the edit, and the content changes. -/
theorem c3_counterexample :
    trimSpaces "North " = trimSpaces "North" ∧
    (([⟨none, 1, "North"⟩, ⟨none, 2, ""⟩] :
        List ApartmentChoice)[1]?).map ApartmentChoice.HallName ≠ some "North " ∧
    (hallEditList none 2 "North " 1 [⟨none, 1, "North"⟩, ⟨none, 2, ""⟩]).2 = false ∧
    ¬ ((hallEditList none 2 "North " 1 [⟨none, 1, "North"⟩, ⟨none, 2, ""⟩]).1.Perm
        [⟨none, 1, "North"⟩, ⟨none, 2, ""⟩]) := by
  decide

/-- Witness for C3 (amended) at a concrete input. -/
theorem c3_amended_editChoice_witness :
    (1 : Nat) < northState.applicationDetails.ApartmentChoices.length ∧
    ((((northState.applicationDetails.ApartmentChoices[1]?).map ApartmentChoice.HallName ≠
          some "North" ∧
        northState.applicationDetails.ApartmentChoices.any
          (fun hallInfo => hallInfo.HallName == "North") = true) →
      (handleHallInputChange 2 "North" 1
            northState).applicationDetails.ApartmentChoices.Perm
          northState.applicationDetails.ApartmentChoices ∧
      List.Sorted hallLe (handleHallInputChange 2 "North" 1
          northState).applicationDetails.ApartmentChoices ∧
      (handleHallInputChange 2 "North" 1 northState).snackbar =
        { message := "North" ++ " is already in the list."
          severity := "info", isOpen := true }) ∧
    ((¬ ((northState.applicationDetails.ApartmentChoices[1]?).map ApartmentChoice.HallName ≠
          some "North" ∧
        northState.applicationDetails.ApartmentChoices.any
          (fun hallInfo => hallInfo.HallName == "North") = true)) →
      (handleHallInputChange 2 "North" 1
            northState).applicationDetails.ApartmentChoices.Perm
          (northState.applicationDetails.ApartmentChoices.set 1
            { ApplicationID := northState.applicationDetails.ApplicationID
              HallRank := 2
              HallName := "North" }) ∧
      List.Sorted hallLe (handleHallInputChange 2 "North" 1
          northState).applicationDetails.ApartmentChoices ∧
      (handleHallInputChange 2 "North" 1 northState).snackbar = northState.snackbar) ∧
    (handleHallInputChange 2 "North" 1 northState).unsavedChanges = true) :=
  ⟨by decide, c3_amended_editChoice northState 2 "North" 1 (by decide)⟩

/-! ### Claim C4 -/

/-- C4: saving an aggregate with zero applicants issues no housing-service
call (empty trace), reports the error notification, sets the saving flag to
`'error'`, and leaves the rest of the state — in particular the aggregate —
unchanged; the JS `result` stays `null`. -/
theorem c4_save_no_applicants (env : Env) (details : ApplicationDetails) (st : AppState)
    (h : details.Applicants = []) :
    saveApartmentApplication env details st =
      ({ st with saving := SavingFlag.error, snackbar := noApplicantsSnackbar }, [], none) := by
  unfold saveApartmentApplication
  rw [if_pos (by rw [h]; decide : details.Applicants.length < 1)]

/-- An all-blank profile, used for concrete environments. -/
def blankProfile : StudentProfileInfo :=
  { AD_Username := "", FirstName := "", LastName := "", fullName := none
    PersonType := "", Gender := none }

/-- An environment in which every service call fails, used as concrete
input. -/
def failingEnv : Env :=
  { userProfile := blankProfile
    getProfileInfo := fun _ => Except.error SvcError.other
    getCurrentApplicationID := fun _ => Except.error SvcError.other
    getApartmentApplication := fun _ => Except.error SvcError.other
    saveApartmentApplication := fun _ => Except.error SvcError.other }

/-- Witness for C4 at a concrete input. -/
theorem c4_save_no_applicants_witness :
    BLANK_APPLICATION_DETAILS.Applicants = [] ∧
    saveApartmentApplication failingEnv BLANK_APPLICATION_DETAILS quietState =
      ({ quietState with saving := SavingFlag.error, snackbar := noApplicantsSnackbar },
        [], none) :=
  ⟨rfl, c4_save_no_applicants failingEnv BLANK_APPLICATION_DETAILS quietState rfl⟩

/-! ### Helper lemmas about the validator and the roster operations -/

theorem applyNotice_applicationDetails (n : Option (String × String)) (st : AppState) :
    (applyNotice n st).applicationDetails = st.applicationDetails := by
  rcases n with _ | ⟨m, s⟩ <;> rfl

theorem applyNotice_unsavedChanges (n : Option (String × String)) (st : AppState) :
    (applyNotice n st).unsavedChanges = st.unsavedChanges := by
  rcases n with _ | ⟨m, s⟩ <;> rfl

theorem isApplicantValid_valid_length (env : Env) (details : ApplicationDetails)
    (a : ApartmentApplicant) (hv : (isApplicantValid env details a).valid = true) :
    details.Applicants.length < MAX_NUM_APPLICANTS := by
  by_contra hge
  have hlen : details.Applicants.length ≥ MAX_NUM_APPLICANTS := not_lt.mp hge
  obtain ⟨aid, aprof, auser, aoff⟩ := a
  rcases aprof with _ | p
  · dsimp only [isApplicantValid] at hv
    simp at hv
  · dsimp only [isApplicantValid] at hv
    rw [if_pos hlen] at hv
    simp at hv

/-- The validator returns the applicant unchanged, except that a missing
`Profile.fullName` is backfilled from first and last name (with the double
space of the source template literal). -/
theorem isApplicantValid_applicant_eq (env : Env) (details : ApplicationDetails)
    (a : ApartmentApplicant) :
    (isApplicantValid env details a).applicant = a ∨
    ∃ p, a.Profile = some p ∧ p.fullName = none ∧
      (isApplicantValid env details a).applicant =
        { a with
          Profile := some { p with fullName := some (p.FirstName ++ "  " ++ p.LastName) } } := by
  obtain ⟨aid, aprof, auser, aoff⟩ := a
  rcases aprof with _ | p
  · left
    rfl
  · obtain ⟨usr, fstn, lstn, fno, ptype, gend⟩ := p
    by_cases hlen : details.Applicants.length ≥ MAX_NUM_APPLICANTS
    · left
      dsimp only [isApplicantValid]
      rw [if_pos hlen]
    · rcases fno with _ | fn
      · right
        refine ⟨_, rfl, rfl, ?_⟩
        dsimp only [isApplicantValid]
        rw [if_neg hlen]
        repeat' split
        all_goals rfl
      · left
        dsimp only [isApplicantValid]
        rw [if_neg hlen]
        repeat' split
        all_goals rfl

/-- `addApplicant` either leaves the roster untouched or appends exactly one
entry, and it appends only when the roster was strictly below
`MAX_NUM_APPLICANTS`. -/
theorem addApplicant_cases (env : Env) (u : String) (st : AppState) :
    (addApplicant env u st).applicationDetails.Applicants =
      st.applicationDetails.Applicants ∨
    (∃ v : ApartmentApplicant,
      (addApplicant env u st).applicationDetails.Applicants =
        st.applicationDetails.Applicants ++ [v] ∧
      st.applicationDetails.Applicants.length < MAX_NUM_APPLICANTS) := by
  unfold addApplicant
  split
  · left
    rfl
  · rename_i p _hres
    by_cases hdup : (st.applicationDetails.Applicants.any
        (fun applicant => (applicant.Profile.map StudentProfileInfo.AD_Username)
          == some u)) = true
    · rw [if_pos hdup]
      left
      rfl
    · rw [if_neg hdup]
      by_cases hval : (isApplicantValid env st.applicationDetails
          (newApplicantObject st.applicationDetails u p)).valid = true
      · right
        refine ⟨(isApplicantValid env st.applicationDetails
          (newApplicantObject st.applicationDetails u p)).applicant, ?_,
          isApplicantValid_valid_length env _ _ hval⟩
        simp only [hval, if_true]
        rw [applyNotice_applicationDetails]
      · left
        rw [Bool.not_eq_true] at hval
        simp only [hval, Bool.false_eq_true, if_false]
        rw [applyNotice_applicationDetails]

/-! ### Claim C5 -/

/-- C5: with the roster already at `MAX_NUM_APPLICANTS` (8) entries,
`addApplicant` of any candidate leaves the roster unchanged and reports a
notification; moreover every roster operation keeps the length within
`[0, 8]`: an add from a roster of at most 8 stays at most 8, and a remove
never increases the length. -/
theorem c5_max_applicants (env : Env) (st : AppState) (u : String)
    (h8 : st.applicationDetails.Applicants.length = MAX_NUM_APPLICANTS) :
    (addApplicant env u st).applicationDetails.Applicants =
      st.applicationDetails.Applicants ∧
    (addApplicant env u st).snackbar.isOpen = true ∧
    (∀ (env2 : Env) (st2 : AppState) (u2 : String),
      st2.applicationDetails.Applicants.length ≤ MAX_NUM_APPLICANTS →
        (addApplicant env2 u2 st2).applicationDetails.Applicants.length ≤
          MAX_NUM_APPLICANTS ∧
        (handleApplicantRemove u2 st2).applicationDetails.Applicants.length ≤
          MAX_NUM_APPLICANTS) := by
  have hmain : (addApplicant env u st).applicationDetails.Applicants =
      st.applicationDetails.Applicants ∧
      (addApplicant env u st).snackbar.isOpen = true := by
    unfold addApplicant
    split
    · exact ⟨rfl, rfl⟩
    · rename_i p _hres
      by_cases hdup : (st.applicationDetails.Applicants.any
          (fun applicant => (applicant.Profile.map StudentProfileInfo.AD_Username)
            == some u)) = true
      · rw [if_pos hdup]
        exact ⟨rfl, rfl⟩
      · rw [if_neg hdup]
        have hge : st.applicationDetails.Applicants.length ≥ MAX_NUM_APPLICANTS := by
          rw [h8]
        have hval : (isApplicantValid env st.applicationDetails
            (newApplicantObject st.applicationDetails u p)).valid = false := by
          cases hvb : (isApplicantValid env st.applicationDetails
              (newApplicantObject st.applicationDetails u p)).valid
          · rfl
          · exact absurd (isApplicantValid_valid_length env _ _ hvb)
              (not_lt.mpr hge)
        have hnot : (isApplicantValid env st.applicationDetails
            (newApplicantObject st.applicationDetails u p)).notice =
            some (maxApplicantsMsg, "warning") := by
          dsimp only [isApplicantValid, newApplicantObject]
          rw [if_pos hge]
        simp only [hval, Bool.false_eq_true, if_false]
        constructor
        · rw [applyNotice_applicationDetails]
        · rw [hnot]
          rfl
  refine ⟨hmain.1, hmain.2, ?_⟩
  intro env2 st2 u2 hlen
  constructor
  · rcases addApplicant_cases env2 u2 st2 with heq | ⟨v, heq, hlt⟩
    · rw [heq]
      exact hlen
    · rw [heq, List.length_append]
      simpa using Nat.succ_le_of_lt hlt
  · unfold handleApplicantRemove
    by_cases hu : u2 ≠ ""
    · rw [if_pos hu]
      exact le_trans (List.length_filter_le _ _) hlen
    · rw [if_neg hu]
      exact hlen

/-- A full roster of eight applicants. -/
def fullState : AppState :=
  { quietState with
    applicationDetails :=
      { BLANK_APPLICATION_DETAILS with
        Applicants := List.replicate 8
          { ApplicationID := none, Profile := some blankProfile
            Username := "x", OffCampusProgram := "" } } }

/-- Witness for C5 at a concrete input. -/
theorem c5_max_applicants_witness :
    fullState.applicationDetails.Applicants.length = MAX_NUM_APPLICANTS ∧
    ((addApplicant failingEnv "y" fullState).applicationDetails.Applicants =
      fullState.applicationDetails.Applicants ∧
    (addApplicant failingEnv "y" fullState).snackbar.isOpen = true ∧
    (∀ (env2 : Env) (st2 : AppState) (u2 : String),
      st2.applicationDetails.Applicants.length ≤ MAX_NUM_APPLICANTS →
        (addApplicant env2 u2 st2).applicationDetails.Applicants.length ≤
          MAX_NUM_APPLICANTS ∧
        (handleApplicantRemove u2 st2).applicationDetails.Applicants.length ≤
          MAX_NUM_APPLICANTS)) :=
  ⟨by decide, c5_max_applicants failingEnv fullState "y" (by decide)⟩

/-! ### Claim C6 -/

/-- A gender mismatch makes the validator fail with a notice (some earlier
check may fire first, but every check before the housing lookup also reports
a notice on failure). -/
theorem isApplicantValid_mismatch (env : Env) (details : ApplicationDetails)
    (a : ApartmentApplicant) (p : StudentProfileInfo)
    (ha : a.Profile = some p) (hgd : p.Gender ≠ details.Gender) :
    (isApplicantValid env details a).valid = false ∧
    (isApplicantValid env details a).notice.isSome = true := by
  obtain ⟨aid, aprof, auser, aoff⟩ := a
  dsimp only at ha
  subst ha
  obtain ⟨usr, fstn, lstn, fno, ptype, gend⟩ := p
  dsimp only at hgd
  rcases fno with _ | fn <;>
  · dsimp only [isApplicantValid]
    by_cases hlen : details.Applicants.length ≥ MAX_NUM_APPLICANTS
    · rw [if_pos hlen]
      exact ⟨rfl, rfl⟩
    · rw [if_neg hlen]
      by_cases hstu : strIncludes ptype "stu" = false
      · rw [if_pos hstu]
        exact ⟨rfl, rfl⟩
      · rw [if_neg hstu, if_pos hgd]
        exact ⟨rfl, rfl⟩

theorem addApplicant_gender_mismatch (env : Env) (st : AppState) (u g : String)
    (p : StudentProfileInfo) (hg : st.applicationDetails.Gender = some g)
    (hp : env.getProfileInfo u = Except.ok p) (hmg : p.Gender ≠ some g) :
    (addApplicant env u st).applicationDetails.Applicants =
      st.applicationDetails.Applicants ∧
    (addApplicant env u st).snackbar.isOpen = true := by
  have hgd : p.Gender ≠ st.applicationDetails.Gender := by
    rw [hg]
    exact hmg
  unfold addApplicant
  split
  · exact ⟨rfl, rfl⟩
  · rename_i p2 heq
    rw [hp] at heq
    have hp2 := Except.ok.inj heq
    subst hp2
    by_cases hdup : (st.applicationDetails.Applicants.any
        (fun applicant => (applicant.Profile.map StudentProfileInfo.AD_Username)
          == some u)) = true
    · rw [if_pos hdup]
      exact ⟨rfl, rfl⟩
    · rw [if_neg hdup]
      obtain ⟨hval, hnots⟩ := isApplicantValid_mismatch env st.applicationDetails
        (newApplicantObject st.applicationDetails u p) p rfl hgd
      simp only [hval, Bool.false_eq_true, if_false]
      constructor
      · rw [applyNotice_applicationDetails]
      · rcases hns : (isApplicantValid env st.applicationDetails
            (newApplicantObject st.applicationDetails u p)).notice with _ | ⟨m, sev⟩
        · rw [hns] at hnots
          exact absurd hnots (by simp)
        · rfl

/-- With every eligibility check passing, the validator succeeds with no
notice and returns the applicant unchanged. -/
theorem isApplicantValid_accept (env : Env) (details : ApplicationDetails)
    (a : ApartmentApplicant) (p : StudentProfileInfo)
    (ha : a.Profile = some p)
    (hlen : details.Applicants.length < MAX_NUM_APPLICANTS)
    (hfn : p.fullName.isSome = true)
    (hstu : strIncludes p.PersonType "stu" = true)
    (hgd : p.Gender = details.Gender)
    (hh : env.getCurrentApplicationID (some p.AD_Username) =
        Except.error SvcError.notFound ∨
      ∃ id, env.getCurrentApplicationID (some p.AD_Username) = Except.ok id ∧
        ¬ (id > 0 ∧ some id ≠ details.ApplicationID)) :
    (isApplicantValid env details a).valid = true ∧
    (isApplicantValid env details a).notice = none ∧
    (isApplicantValid env details a).applicant = a := by
  obtain ⟨aid, aprof, auser, aoff⟩ := a
  dsimp only at ha
  subst ha
  obtain ⟨usr, fstn, lstn, fno, ptype, gend⟩ := p
  dsimp only at hfn hstu hgd hh
  rcases fno with _ | fn
  · exact absurd hfn (by simp)
  · dsimp only [isApplicantValid]
    rw [if_neg (not_le.mpr hlen)]
    rw [if_neg (by rw [hstu]; simp : ¬ (strIncludes ptype "stu" = false))]
    rw [if_neg (not_not_intro hgd)]
    rcases hh with herr | ⟨id, hid, hno⟩
    · split
      · rename_i existingAppID heq
        rw [herr] at heq
        exact absurd heq (by simp)
      · exact ⟨rfl, rfl, rfl⟩
      · rename_i heq
        rw [herr] at heq
        exact absurd heq (by simp)
      · rename_i heq
        rw [herr] at heq
        exact absurd heq (by simp)
    · split
      · rename_i existingAppID heq
        rw [hid] at heq
        have hsub := Except.ok.inj heq
        subst hsub
        rw [if_neg hno]
        exact ⟨rfl, rfl, rfl⟩
      · rename_i heq
        rw [hid] at heq
        exact absurd heq (by simp)
      · rename_i heq
        rw [hid] at heq
        exact absurd heq (by simp)
      · rename_i heq
        rw [hid] at heq
        exact absurd heq (by simp)

/-- On an accepted addition, `addApplicant` appends exactly the new applicant
object and marks unsaved changes. -/
theorem addApplicant_accept (env : Env) (u : String) (st : AppState)
    (p : StudentProfileInfo)
    (hp : env.getProfileInfo u = Except.ok p)
    (hdup : (st.applicationDetails.Applicants.any
        (fun applicant => (applicant.Profile.map StudentProfileInfo.AD_Username)
          == some u)) = false)
    (hval : (isApplicantValid env st.applicationDetails
        (newApplicantObject st.applicationDetails u p)).valid = true)
    (hnot : (isApplicantValid env st.applicationDetails
        (newApplicantObject st.applicationDetails u p)).notice = none)
    (happ : (isApplicantValid env st.applicationDetails
        (newApplicantObject st.applicationDetails u p)).applicant =
        newApplicantObject st.applicationDetails u p) :
    addApplicant env u st =
      { st with
        applicationDetails :=
          { st.applicationDetails with
            Applicants := st.applicationDetails.Applicants ++
              [newApplicantObject st.applicationDetails u p] }
        unsavedChanges := true } := by
  unfold addApplicant
  split
  · rename_i e heq
    rw [hp] at heq
    exact absurd heq (by simp)
  · rename_i p2 heq
    rw [hp] at heq
    have hp2 := Except.ok.inj heq
    subst hp2
    rw [if_neg (by rw [hdup]; simp : ¬ ((st.applicationDetails.Applicants.any
      (fun applicant => (applicant.Profile.map StudentProfileInfo.AD_Username)
        == some u)) = true))]
    simp only [hval, hnot, happ, if_true, applyNotice]

/-- C6: a candidate whose profile gender differs from the aggregate gender is
rejected with a notification and the roster is unchanged; a candidate of the
matching gender that passes the other eligibility checks is appended. -/
theorem c6_gender_gate (env : Env) (st : AppState) (u g : String)
    (p : StudentProfileInfo)
    (hg : st.applicationDetails.Gender = some g)
    (hp : env.getProfileInfo u = Except.ok p)
    (hdup : (st.applicationDetails.Applicants.any
        (fun applicant => (applicant.Profile.map StudentProfileInfo.AD_Username)
          == some u)) = false)
    (hlen : st.applicationDetails.Applicants.length < MAX_NUM_APPLICANTS)
    (hfn : p.fullName.isSome = true)
    (hstu : strIncludes p.PersonType "stu" = true)
    (hmatch : p.Gender = some g)
    (hh : env.getCurrentApplicationID (some p.AD_Username) =
        Except.error SvcError.notFound ∨
      ∃ id, env.getCurrentApplicationID (some p.AD_Username) = Except.ok id ∧
        ¬ (id > 0 ∧ some id ≠ st.applicationDetails.ApplicationID)) :
    (addApplicant env u st).applicationDetails.Applicants =
      st.applicationDetails.Applicants ++ [newApplicantObject st.applicationDetails u p] ∧
    (addApplicant env u st).unsavedChanges = true ∧
    (∀ (env2 : Env) (st2 : AppState) (u2 g2 : String) (p2 : StudentProfileInfo),
      st2.applicationDetails.Gender = some g2 →
      env2.getProfileInfo u2 = Except.ok p2 →
      p2.Gender ≠ some g2 →
        (addApplicant env2 u2 st2).applicationDetails.Applicants =
          st2.applicationDetails.Applicants ∧
        (addApplicant env2 u2 st2).snackbar.isOpen = true) := by
  have hgd : p.Gender = st.applicationDetails.Gender := by
    rw [hg, hmatch]
  obtain ⟨hval, hnot, happ⟩ := isApplicantValid_accept env st.applicationDetails
    (newApplicantObject st.applicationDetails u p) p rfl hlen hfn hstu hgd hh
  have hadd := addApplicant_accept env u st p hp hdup hval hnot happ
  rw [hadd]
  exact ⟨rfl, rfl, fun env2 st2 u2 g2 p2 hg2 hp2 hmm2 =>
    addApplicant_gender_mismatch env2 st2 u2 g2 p2 hg2 hp2 hmm2⟩

/-- A female student profile already on the roster. -/
def aliceProfile : StudentProfileInfo :=
  { AD_Username := "alice", FirstName := "Alice", LastName := "A"
    fullName := some "Alice A", PersonType := "stu", Gender := some "F" }

/-- A female student profile to be added. -/
def carolProfile : StudentProfileInfo :=
  { AD_Username := "carol", FirstName := "Carol", LastName := "C"
    fullName := some "Carol C", PersonType := "stu", Gender := some "F" }

/-- A roster with Alice only and established gender `"F"`. -/
def rosterState : AppState :=
  { quietState with
    applicationDetails :=
      { BLANK_APPLICATION_DETAILS with
        Gender := some "F"
        Applicants := [{ ApplicationID := none, Profile := some aliceProfile
                         Username := "alice", OffCampusProgram := "" }] } }

/-- An environment resolving every username to Carol and reporting no
existing application. -/
def carolEnv : Env :=
  { userProfile := aliceProfile
    getProfileInfo := fun _ => Except.ok carolProfile
    getCurrentApplicationID := fun _ => Except.error SvcError.notFound
    getApartmentApplication := fun _ => Except.error SvcError.other
    saveApartmentApplication := fun _ => Except.error SvcError.other }

/-- Witness for C6 at a concrete input. -/
theorem c6_gender_gate_witness :
    rosterState.applicationDetails.Gender = some "F" ∧
    carolEnv.getProfileInfo "carol" = Except.ok carolProfile ∧
    (rosterState.applicationDetails.Applicants.any
        (fun applicant => (applicant.Profile.map StudentProfileInfo.AD_Username)
          == some "carol")) = false ∧
    rosterState.applicationDetails.Applicants.length < MAX_NUM_APPLICANTS ∧
    carolProfile.fullName.isSome = true ∧
    strIncludes carolProfile.PersonType "stu" = true ∧
    carolProfile.Gender = some "F" ∧
    (carolEnv.getCurrentApplicationID (some carolProfile.AD_Username) =
        Except.error SvcError.notFound ∨
      ∃ id, carolEnv.getCurrentApplicationID (some carolProfile.AD_Username) =
          Except.ok id ∧
        ¬ (id > 0 ∧ some id ≠ rosterState.applicationDetails.ApplicationID)) ∧
    ((addApplicant carolEnv "carol" rosterState).applicationDetails.Applicants =
        rosterState.applicationDetails.Applicants ++
          [newApplicantObject rosterState.applicationDetails "carol" carolProfile] ∧
      (addApplicant carolEnv "carol" rosterState).unsavedChanges = true ∧
      (∀ (env2 : Env) (st2 : AppState) (u2 g2 : String) (p2 : StudentProfileInfo),
        st2.applicationDetails.Gender = some g2 →
        env2.getProfileInfo u2 = Except.ok p2 →
        p2.Gender ≠ some g2 →
          (addApplicant env2 u2 st2).applicationDetails.Applicants =
            st2.applicationDetails.Applicants ∧
          (addApplicant env2 u2 st2).snackbar.isOpen = true)) :=
  ⟨rfl, rfl, by decide, by decide, rfl, by decide, rfl, Or.inl rfl,
    c6_gender_gate carolEnv rosterState "carol" "F" carolProfile rfl rfl
      (by decide) (by decide) rfl (by decide) rfl (Or.inl rfl)⟩

/-! ### Claim C7 -/

/-- On an accepted addition the roster becomes the old roster with exactly
the validated applicant object appended. -/
theorem addApplicant_applicants_of_valid (env : Env) (u : String) (st : AppState)
    (p : StudentProfileInfo)
    (hp : env.getProfileInfo u = Except.ok p)
    (hdup : (st.applicationDetails.Applicants.any
        (fun applicant => (applicant.Profile.map StudentProfileInfo.AD_Username)
          == some u)) = false)
    (hval : (isApplicantValid env st.applicationDetails
        (newApplicantObject st.applicationDetails u p)).valid = true) :
    (addApplicant env u st).applicationDetails.Applicants =
      st.applicationDetails.Applicants ++
        [(isApplicantValid env st.applicationDetails
          (newApplicantObject st.applicationDetails u p)).applicant] := by
  unfold addApplicant
  split
  · rename_i e heq
    rw [hp] at heq
    exact absurd heq (by simp)
  · rename_i p2 heq
    rw [hp] at heq
    have hp2 := Except.ok.inj heq
    subst hp2
    rw [if_neg (by rw [hdup]; simp : ¬ ((st.applicationDetails.Applicants.any
      (fun applicant => (applicant.Profile.map StudentProfileInfo.AD_Username)
        == some u)) = true))]
    simp only [hval, if_true]
    rw [applyNotice_applicationDetails]

/-- The validator never changes the username of the applicant profile. -/
theorem isApplicantValid_applicant_username (env : Env) (st : AppState)
    (u : String) (p : StudentProfileInfo) (had : p.AD_Username = u) :
    ((isApplicantValid env st.applicationDetails
        (newApplicantObject st.applicationDetails u p)).applicant).Profile.map
      StudentProfileInfo.AD_Username = some u := by
  rcases isApplicantValid_applicant_eq env st.applicationDetails
      (newApplicantObject st.applicationDetails u p) with he | ⟨q, hq, _, he⟩
  · rw [he]
    simp [newApplicantObject, had]
  · have hpq : p = q := Option.some.inj hq
    subst hpq
    rw [he]
    simp [had]

/-- C7: for a valid (accepted) addition, `addApplicant(u)` followed by
`removeApplicant(u)` returns the `Applicants` sequence to exactly its prior
value, in particular to its prior multiset. -/
theorem c7_add_remove_roundtrip (env : Env) (st : AppState) (u : String)
    (p : StudentProfileInfo)
    (hu : u ≠ "")
    (hp : env.getProfileInfo u = Except.ok p)
    (had : p.AD_Username = u)
    (hdup : (st.applicationDetails.Applicants.any
        (fun applicant => (applicant.Profile.map StudentProfileInfo.AD_Username)
          == some u)) = false)
    (hval : (isApplicantValid env st.applicationDetails
        (newApplicantObject st.applicationDetails u p)).valid = true) :
    (handleApplicantRemove u (addApplicant env u st)).applicationDetails.Applicants =
      st.applicationDetails.Applicants ∧
    (handleApplicantRemove u (addApplicant env u st)).applicationDetails.Applicants.Perm
      st.applicationDetails.Applicants := by
  have heq : (handleApplicantRemove u (addApplicant env u st)).applicationDetails.Applicants =
      st.applicationDetails.Applicants := by
    unfold handleApplicantRemove
    rw [if_pos hu]
    show ((addApplicant env u st).applicationDetails.Applicants.filter
      (fun applicant => (applicant.Profile.map StudentProfileInfo.AD_Username)
        != some u)) = st.applicationDetails.Applicants
    rw [addApplicant_applicants_of_valid env u st p hp hdup hval, List.filter_append]
    have h1 : (st.applicationDetails.Applicants.filter
        (fun applicant => (applicant.Profile.map StudentProfileInfo.AD_Username)
          != some u)) = st.applicationDetails.Applicants := by
      rw [List.filter_eq_self]
      intro a ha
      have hne := List.any_eq_false.mp hdup a ha
      simpa using hne
    have h2 : ([(isApplicantValid env st.applicationDetails
        (newApplicantObject st.applicationDetails u p)).applicant].filter
        (fun applicant => (applicant.Profile.map StudentProfileInfo.AD_Username)
          != some u)) = [] := by
      have husr := isApplicantValid_applicant_username env st u p had
      simp [List.filter, husr]
    rw [h1, h2, List.append_nil]
  exact ⟨heq, heq ▸ List.Perm.refl _⟩

/-- Witness for C7 at a concrete input. -/
theorem c7_add_remove_roundtrip_witness :
    ("carol" : String) ≠ "" ∧
    carolEnv.getProfileInfo "carol" = Except.ok carolProfile ∧
    carolProfile.AD_Username = "carol" ∧
    (rosterState.applicationDetails.Applicants.any
        (fun applicant => (applicant.Profile.map StudentProfileInfo.AD_Username)
          == some "carol")) = false ∧
    (isApplicantValid carolEnv rosterState.applicationDetails
        (newApplicantObject rosterState.applicationDetails "carol" carolProfile)).valid = true ∧
    ((handleApplicantRemove "carol"
        (addApplicant carolEnv "carol" rosterState)).applicationDetails.Applicants =
      rosterState.applicationDetails.Applicants ∧
    (handleApplicantRemove "carol"
        (addApplicant carolEnv "carol" rosterState)).applicationDetails.Applicants.Perm
      rosterState.applicationDetails.Applicants) :=
  ⟨by decide, rfl, rfl, by decide, by decide,
    c7_add_remove_roundtrip carolEnv rosterState "carol" carolProfile
      (by decide) rfl rfl (by decide) (by decide)⟩

/-! ### Claim C8 -/

/-- A student profile with no `fullName` field. -/
def noNameProfile : StudentProfileInfo :=
  { AD_Username := "u", FirstName := "First", LastName := "Last"
    fullName := none, PersonType := "stu", Gender := some "F" }

/-- The candidate applicant carrying that profile. -/
def c8Applicant : ApartmentApplicant :=
  { ApplicationID := none, Profile := some noNameProfile
    Username := "u", OffCampusProgram := "" }

/-- C8 (counterexample): running the eligibility check on a candidate whose
profile lacks `fullName` changes the candidate — the profile comes back with
`fullName` backfilled to `"First  Last"` — so the validation rules are not
pure in the claimed sense. -/
theorem c8_counterexample :
    (isApplicantValid failingEnv BLANK_APPLICATION_DETAILS c8Applicant).applicant ≠
      c8Applicant ∧
    (isApplicantValid failingEnv BLANK_APPLICATION_DETAILS c8Applicant).applicant.Profile =
      some { noNameProfile with fullName := some "First  Last" } := by
  decide

/-- C8 (amended): the eligibility check is pure except for one frame effect:
when the candidate profile has no `fullName`, the returned applicant carries
the profile with `fullName` set to `FirstName ++ "  " ++ LastName`; in every
other respect the candidate is returned unchanged (and the aggregate is
never touched — the check only signals its verdict and notice). -/
theorem c8_amended_validator_frame (env : Env) (details : ApplicationDetails)
    (a : ApartmentApplicant) :
    (isApplicantValid env details a).applicant = a ∨
    ∃ p, a.Profile = some p ∧ p.fullName = none ∧
      (isApplicantValid env details a).applicant =
        { a with
          Profile := some { p with fullName := some (p.FirstName ++ "  " ++ p.LastName) } } :=
  isApplicantValid_applicant_eq env details a

end StudentApplication
